import Mathlib

/-!
Shallow embedding of `src/DeBERTa/apps/train.py` (the DeBERTa finetuning
driver) together with theorems settling the specification claims about it.

Modelling conventions:
* A torch tensor is a `List α` of its rows (row content is abstract);
  `torch.cat` is `List.flatten`, slicing `t[:m]` is `List.take m`.
* A value appended to `merge_distributed`'s input may be a single tensor or
  a `Sequence` of tensors (`TData`).
* Python floats are modelled as exact rationals `ℚ`.
* External collaborators (the model, `torch.distributed.all_gather`,
  `metric_accuracy`, task processors, the trainer) are parameters of the
  embedded functions; the embedding records what is passed to them.
* Fallible operations (indexing an empty list, dividing by a zero step
  counter, `torch.cat` over mixed tensor/sequence entries) return `Except`.
-/

namespace DeBERTaApps

/-- The parsed CLI argument object (`argparse` namespace), restricted to the
fields read by the functions in `train.py`.  `rank` and `world_size` are the
attributes installed by the distributed launcher before the functions here
read them. -/
structure Args where
  do_train : Bool
  do_eval : Bool
  do_predict : Bool
  do_onnx : Bool
  data_dir : String
  task_name : String
  output_dir : String
  init_model : Option String
  model_config : Option String
  pre_trained : Option String
  cls_drop_out : Option ℚ
  fp16 : Bool
  tag : String
  seed : Int
  rank : Int
  world_size : Nat
  train_batch_size : Int
  eval_batch_size : Int
  num_train_epochs : ℚ
  dump_interval : Int
  workers : Int
  debug : Bool
  max_seq_length : Int
  deriving Repr

/-- A datum flowing through `merge_distributed`: either a single tensor or a
`Sequence` of tensors (a model may return a tuple of logit tensors). -/
inductive TData (α : Type) where
  | tensor : List α → TData α
  | seq : List (List α) → TData α
  deriving Repr, DecidableEq

/-- The value `merge_distributed` returns: one concatenated tensor, or one
tensor per component of the sequence-valued inputs. -/
inductive MergeResult (α : Type) where
  | tensor : List α → MergeResult α
  | tensors : List (List α) → MergeResult α
  deriving Repr, DecidableEq

/-- Failure modes of `merge_distributed`:
`indexEmpty` models the `IndexError` of `merged[0]` on an empty list;
`catMixed` models the runtime error `torch.cat` (resp. `zip`/`torch.cat`)
raises when the merged list mixes tensors and sequences. -/
inductive MergeErr where
  | indexEmpty
  | catMixed
  deriving Repr, DecidableEq

/-- Model of `torch.cat(merged)`: it succeeds only when every entry is a single tensor. -/
def allTensors {α : Type} : List (TData α) → Option (List (List α))
  | [] => some []
  | TData.tensor t :: rest => (allTensors rest).map (fun ts => t :: ts)
  | TData.seq _ :: _ => none

/-- The `zip(*merged)`/`torch.cat` path succeeds only when every entry is a
`Sequence` of tensors. -/
def allSeqs {α : Type} : List (TData α) → Option (List (List (List α)))
  | [] => some []
  | TData.seq ds :: rest => (allSeqs rest).map (fun ss => ds :: ss)
  | TData.tensor _ :: _ => none

/-- Length of the shortest list: the number of tuples produced by
`zip(*ls)` in Python. -/
def minLen {β : Type} : List (List β) → Nat
  | [] => 0
  | l :: rest => rest.foldl (fun m x => min m x.length) l.length

/-- Python `zip(*ls)`: transpose truncated to the shortest row. -/
def pyZip {β : Type} (ls : List (List β)) : List (List β) :=
  (List.range (minLen ls)).map (fun i => ls.filterMap (fun l => l.get? i))

/-- Python slicing `t[:max_len]` when `max_len` may be `None`. -/
def truncTo {α : Type} (max_len : Option Nat) (t : List α) : List α :=
  match max_len with
  | some m => t.take m
  | none => t

/-- One iteration of the `for data in data_list` loop of `merge_distributed`
(train.py lines 73-86): the list of entries it appends to `merged`.
`initialized` and `world_size` model `torch.distributed.is_initialized()` and
`torch.distributed.get_world_size()`; `gather` models the inner `gather`
helper (an `all_gather` producing one chunk per rank). -/
def gatherStep {α : Type} (initialized : Bool) (world_size : Nat)
    (gather : List α → List (List α)) (data : TData α) : List (TData α) :=
  if initialized = true ∧ 1 < world_size then
    match data with
    | TData.seq ds => [TData.seq (ds.map (fun d => (gather d).flatten))]
    | TData.tensor t => (gather t).map TData.tensor
  else
    [data]

/-- The `merged` list accumulated by the loop of `merge_distributed`. -/
def mergedOf {α : Type} (initialized : Bool) (world_size : Nat)
    (gather : List α → List (List α)) (data_list : List (TData α)) :
    List (TData α) :=
  (data_list.map (gatherStep initialized world_size gather)).flatten

/-- Embedding of `merge_distributed(data_list, max_len)` (train.py lines 65-100).  After
accumulating `merged`, the code branches on `isinstance(merged[0], Sequence)`:
the tensor branch concatenates and truncates once, the sequence branch zips
the components, concatenating and truncating each. -/
def merge_distributed {α : Type} (initialized : Bool) (world_size : Nat)
    (gather : List α → List (List α)) (data_list : List (TData α))
    (max_len : Option Nat) : Except MergeErr (MergeResult α) :=
  let merged := mergedOf initialized world_size gather data_list
  match merged with
  | [] => Except.error MergeErr.indexEmpty
  | TData.tensor _ :: _ =>
    match allTensors merged with
    | some ts => Except.ok (MergeResult.tensor (truncTo max_len ts.flatten))
    | none => Except.error MergeErr.catMixed
  | TData.seq _ :: _ =>
    match allSeqs merged with
    | some dss =>
      Except.ok (MergeResult.tensors
        ((pyZip dss).map (fun d => truncTo max_len d.flatten)))
    | none => Except.error MergeErr.catMixed

/-- Rendering of an `Option String` the way a Python f-string or
`str.format` renders a possibly-`None` value. -/
def pyStr (o : Option String) : String :=
  match o with
  | some s => s
  | none => "None"

/-- Model of `OrderedDict` item assignment `d[k] = v`: replace in place if the key is
present, otherwise append at the end. -/
def odSet {β : Type} : List (String × β) → String → β → List (String × β)
  | [], k, v => [(k, v)]
  | kv :: rest, k, v => if kv.1 = k then (k, v) :: rest else kv :: odSet rest k v

/-- Model of `OrderedDict.update` with the entries of `ms`, in order. -/
def odUpdate {β : Type} (r : List (String × β)) (ms : List (String × β)) :
    List (String × β) :=
  ms.foldl (fun acc kv => odSet acc kv.1 kv.2) r

/-- Dictionary lookup `d[k]` / `d.get(k)` on the ordered-pair representation. -/
def odFind {β : Type} : List (String × β) → String → Option β
  | [], _ => none
  | kv :: rest, k => if kv.1 = k then some kv.2 else odFind rest k

/-- Model of `np.mean` over a list of (rational-modelled) floats. -/
def qmean (l : List ℚ) : ℚ := l.sum / (l.length : ℚ)

/-- One evaluation dataset with its scoring strategy (the external `EvalData`
record consumed by `calc_metrics` / `run_eval` / `run_predict`).
`data_len` is `len(eval_item.data)`; `predict_fn` is `some ()` when the task
supplies its own prediction dumper; `metrics_fn` returns an ordered dict of
named metric values. -/
structure EvalItem (α : Type) where
  name : String
  data_len : Nat
  metrics_fn : Option (List α → List α → List (String × ℚ))
  predict_fn : Option Unit
  critial_metrics : Option (List String)
  ignore_metric : Bool

/-- The `eval_metric` computed by `calc_metrics` (train.py lines 105-113):
`metric_accuracy(predicts, labels)` when no `metrics_fn` is supplied,
otherwise the `np.mean` of the `metrics_fn` values whose keys lie in
`critial_metrics` (which defaults to all keys when `None` or empty). -/
def calcEvalMetric {α : Type} (metric_accuracy : List α → List α → ℚ)
    (eval_item : EvalItem α) (predicts labels : List α) : ℚ :=
  match eval_item.metrics_fn with
  | none => metric_accuracy predicts labels
  | some f =>
    let metrics := f predicts labels
    let critial :=
      match eval_item.critial_metrics with
      | none => metrics.map Prod.fst
      | some cm => if cm.length = 0 then metrics.map Prod.fst else cm
    qmean ((metrics.filter (fun kv => critial.contains kv.1)).map Prod.snd)

/-- A file created by a function of this file, as directory plus file name
(`os.path.join(args.output_dir, name)`). -/
structure FileOut where
  dir : String
  file : String
  deriving DecidableEq, Repr

/-- Observable outcome of a `calc_metrics` call: the updated `eval_results`
mapping, the `result` report dict it writes, the files it creates itself,
and whether it invoked the external `predict_fn`.  `args` is returned so the
embedding can certify the argument object is not mutated. -/
structure CalcOut (α : Type) where
  eval_results : List (String × ℚ × List α × List α)
  result : List (String × ℚ)
  files : List FileOut
  predictFnCalled : Bool
  args : Args

/-- Embedding of `calc_metrics(predicts, labels, eval_loss, eval_item, eval_results, args,
name, prefix, steps, tag)` (train.py lines 102-142).  The metric computation
of lines 105-113 is factored into `calcEvalMetric`; `metrics_fn` is pure, so
recomputing it for the `result.update(metrics)` of line 111 is sound.
Logging and the dead `tb_metrics`/`_ignore` bookkeeping are omitted. -/
def calc_metrics {α : Type} (metric_accuracy : List α → List α → ℚ)
    (predicts labels : List α) (eval_loss : ℚ) (eval_item : EvalItem α)
    (eval_results : List (String × ℚ × List α × List α)) (args : Args)
    (name pfx : String) : CalcOut α :=
  let result0 : List (String × ℚ) :=
    match eval_item.metrics_fn with
    | none => []
    | some f => odUpdate [] (f predicts labels)
  let eval_metric := calcEvalMetric metric_accuracy eval_item predicts labels
  let result1 := odSet result0 "eval_loss" eval_loss
  let result2 := odSet result1 "eval_metric" eval_metric
  let result3 := odSet result2 "eval_samples" (labels.length : ℚ)
  let files : List FileOut :=
    if args.rank ≤ 0 then
      { dir := args.output_dir,
        file := "eval_results_" ++ name ++ "_" ++ pfx ++ ".txt" } ::
      (match eval_item.predict_fn with
       | some _ => []
       | none =>
         [{ dir := args.output_dir,
            file := "predict_results_" ++ name ++ "_" ++ pfx ++ ".txt" },
          { dir := args.output_dir,
            file := "predict_labels_" ++ name ++ "_" ++ pfx ++ ".txt" }])
    else []
  { eval_results :=
      if eval_item.ignore_metric then eval_results
      else odSet eval_results name (eval_metric, predicts, labels)
    result := result3
    files := files
    predictFnCalled := decide (args.rank ≤ 0) && eval_item.predict_fn.isSome
    args := args }

/-- One batch of the evaluation loop of `run_eval` (train.py lines 161-171):
the mean loss item, the model logits (a tensor or a tuple of tensors), the
label tensor, and `input_ids.size(0)`. -/
structure EvalBatch (α : Type) where
  loss : ℚ
  logits : TData α
  label_ids : List α
  batch_size : Nat

/-- Failure modes of `run_eval`: `zeroDiv` is the `ZeroDivisionError` of
`eval_loss / nb_eval_steps` when the loader yields no batch; `merge`
propagates a `merge_distributed` failure; `labelsNotTensor` models
`labels.detach()` failing when the merged labels are a sequence. -/
inductive EvalErr where
  | zeroDiv
  | merge (e : MergeErr)
  | labelsNotTensor
  deriving Repr, DecidableEq

/-- The body of `for eval_item in eval_data` in `run_eval` (train.py lines
150-180), given the batches the distributed loader and the model produce on
this rank.  Returns the updated `eval_results` and the files written. -/
def run_eval_item {α : Type} (metric_accuracy : List α → List α → ℚ)
    (args : Args) (initialized : Bool) (gather : List α → List (List α))
    (eval_item : EvalItem α) (batches : List (EvalBatch α))
    (eval_results : List (String × ℚ × List α × List α)) (pfx : String) :
    Except EvalErr (List (String × ℚ × List α × List α) × List FileOut) :=
  let nb_eval_steps := batches.length
  if nb_eval_steps = 0 then Except.error EvalErr.zeroDiv
  else
    let eval_loss := (batches.map EvalBatch.loss).sum / (nb_eval_steps : ℚ)
    match merge_distributed initialized args.world_size gather
        (batches.map EvalBatch.logits) (some eval_item.data_len) with
    | Except.error e => Except.error (EvalErr.merge e)
    | Except.ok predicts =>
      match merge_distributed initialized args.world_size gather
          (batches.map (fun b => TData.tensor b.label_ids))
          (some eval_item.data_len) with
      | Except.error e => Except.error (EvalErr.merge e)
      | Except.ok (MergeResult.tensors _) => Except.error EvalErr.labelsNotTensor
      | Except.ok (MergeResult.tensor labels) =>
        match predicts with
        | MergeResult.tensor p =>
          let co := calc_metrics metric_accuracy p labels eval_loss eval_item
            eval_results args eval_item.name pfx
          Except.ok (co.eval_results, co.files)
        | MergeResult.tensors ps =>
          let step := fun (acc : List (String × ℚ × List α × List α) × List FileOut)
              (ka : Nat × List α) =>
            let co := calc_metrics metric_accuracy ka.2 labels eval_loss eval_item
              acc.1 args (eval_item.name ++ "@" ++ toString ka.1) pfx
            (co.eval_results, acc.2 ++ co.files)
          Except.ok (ps.enum.foldl step (eval_results, []))

/-- The item loop of `run_eval`, threading `eval_results` and accumulating
the files written; a failing item aborts the whole call. -/
def run_eval_loop {α : Type} (metric_accuracy : List α → List α → ℚ)
    (args : Args) (initialized : Bool) (gather : List α → List (List α))
    (pfx : String) :
    List (EvalItem α × List (EvalBatch α)) →
    List (String × ℚ × List α × List α) × List FileOut →
    Except EvalErr (List (String × ℚ × List α × List α) × List FileOut)
  | [], acc => Except.ok acc
  | (item, batches) :: rest, acc =>
    match run_eval_item metric_accuracy args initialized gather item batches
        acc.1 pfx with
    | Except.error e => Except.error e
    | Except.ok (res, fs) =>
      run_eval_loop metric_accuracy args initialized gather pfx rest
        (res, acc.2 ++ fs)

/-- Embedding of `run_eval(args, model, device, eval_data, prefix, tag, steps)` (train.py
lines 144-182).  `eval_data` carries, per `EvalItem`, the batches produced on
this rank.  The effective prefix is `f'{tag}_{prefix}'` when a tag is given.
The argument object is returned unchanged alongside the result. -/
def run_eval {α : Type} (metric_accuracy : List α → List α → ℚ)
    (args : Args) (initialized : Bool) (gather : List α → List (List α))
    (eval_data : List (EvalItem α × List (EvalBatch α)))
    (pfx tag : Option String) :
    Except EvalErr (List (String × ℚ × List α × List α) × List FileOut) × Args :=
  let pfx2 := match tag with
    | some t => some (t ++ "_" ++ pyStr pfx)
    | none => pfx
  (run_eval_loop metric_accuracy args initialized gather (pyStr pfx2)
    eval_data ([], []), args)

/-- The `TypeError` of `predicts[:len(eval_item.data)]` in `run_predict` when
the loader yields no batch and `predicts` is still `None`. -/
inductive PredErr where
  | noneSubscript
  deriving Repr, DecidableEq

/-- The body of `for eval_item in eval_data` in `run_predict` (train.py lines
188-219), given the per-batch logit tensors produced on this rank.  When
`args.world_size > 1` each batch is all-gathered and concatenated; the
accumulated `predicts` is truncated to `len(eval_item.data)`; only rank `<= 0`
dumps the logits file and invokes an optional `predict_fn`.  Returns the
truncated predictions, the files written, and whether `predict_fn` ran. -/
def run_predict_item {α : Type} (args : Args) (gather : List α → List (List α))
    (eval_item : EvalItem α) (batchLogits : List (List α)) (pfx : String) :
    Except PredErr (List α × List FileOut × Bool) :=
  match batchLogits with
  | [] => Except.error PredErr.noneSubscript
  | _ :: _ =>
    let gathered := batchLogits.map
      (fun lg => if 1 < args.world_size then (gather lg).flatten else lg)
    let predicts := gathered.flatten.take eval_item.data_len
    if args.rank ≤ 0 then
      Except.ok (predicts,
        [{ dir := args.output_dir,
           file := "test_logits_" ++ eval_item.name ++ "_" ++ pfx ++ ".txt" }],
        eval_item.predict_fn.isSome)
    else
      Except.ok (predicts, [], false)

/-- Outcome of `run_predict`: the files created before any failure, whether
the call failed, and the unchanged argument object. -/
structure PredOut where
  files : List FileOut
  err : Option PredErr
  args : Args

/-- The item loop of `run_predict`, accumulating the files written so far and
stopping at the first failing item. -/
def run_predict_loop {α : Type} (args : Args) (gather : List α → List (List α))
    (pfx : String) :
    List (EvalItem α × List (List α)) → List FileOut →
    List FileOut × Option PredErr
  | [], acc => (acc, none)
  | (item, lgs) :: rest, acc =>
    match run_predict_item args gather item lgs pfx with
    | Except.error e => (acc, some e)
    | Except.ok (_, fs, _) => run_predict_loop args gather pfx rest (acc ++ fs)

/-- Embedding of `run_predict(args, model, device, eval_data, prefix)` (train.py lines
184-219).  `eval_data` carries, per `EvalItem`, the logits of the batches
produced on this rank. -/
def run_predict {α : Type} (args : Args) (gather : List α → List (List α))
    (eval_data : List (EvalItem α × List (List α))) (pfx : Option String) :
    PredOut :=
  let r := run_predict_loop args gather (pyStr pfx) eval_data []
  { files := r.1, err := r.2, args := args }

/-- Python `int(...)` on a float: truncation toward zero. -/
def pyInt (q : ℚ) : Int := if 0 ≤ q then Int.floor q else Int.ceil q

/-- What `train_model` assembles and hands to the external
`DistributedTrainer` (train.py lines 44-63): the example count, the step
count its `data_fn` callback supplies, and the dump interval. -/
structure TrainSetup where
  total_examples : Nat
  num_train_steps : Int
  dump_interval : Int
  args : Args

/-- Embedding of `train_model(args, model, device, train_data, eval_data)` (train.py lines
44-63): `num_train_steps = int(len(train_data)*args.num_train_epochs /
args.train_batch_size)`.  The optimization loop itself is external. -/
def train_model (args : Args) (train_data_len : Nat) : TrainSetup :=
  { total_examples := train_data_len
    num_train_steps :=
      pyInt ((train_data_len : ℚ) * args.num_train_epochs /
        (args.train_batch_size : ℚ))
    dump_interval := args.dump_interval
    args := args }

/-- What `create_model` passes to the external `model_class_fn` (train.py
lines 32-42): ranks `>= 1` drop the checkpoint path, and `fp16` casts the
model to half precision. -/
structure ModelSpec where
  init_model : Option String
  model_config : Option String
  num_labels : Nat
  drop_out : Option ℚ
  pre_trained : Option String
  halfPrecision : Bool
  deriving Repr, DecidableEq

/-- Embedding of `create_model(args, num_labels, model_class_fn)` (train.py lines 32-42). -/
def create_model (args : Args) (num_labels : Nat) : ModelSpec × Args :=
  let rank := args.rank
  let init_model := if rank < 1 then args.init_model else none
  ({ init_model := init_model
     model_config := args.model_config
     num_labels := num_labels
     drop_out := args.cls_drop_out
     pre_trained := args.pre_trained
     halfPrecision := args.fp16 }, args)

/-- One batch consumed by `run_onnx_training` (train.py lines 265-271). -/
structure OnnxBatch (α : Type) where
  input_ids : List α
  type_ids : List α
  position_ids : List α
  input_mask : List α
  labels : List α

/-- One `trainer.train_step` invocation issued by `run_onnx_training`:
the batch fields in call order, with the constant zero learning rate tensor
of line 268. -/
structure OnnxStep (α : Type) where
  input_ids : List α
  type_ids : List α
  position_ids : List α
  input_mask : List α
  labels : List α
  lr : ℚ

/-- Embedding of `run_onnx_training(args, model, device, train_data, prefix)` (train.py
lines 257-274): one `train_step` per batch; the ORT trainer itself is
external. -/
def run_onnx_training {α : Type} (args : Args) (batches : List (OnnxBatch α)) :
    List (OnnxStep α) × Args :=
  (batches.map (fun b =>
    { input_ids := b.input_ids
      type_ids := b.type_ids
      position_ids := b.position_ids
      input_mask := b.input_mask
      labels := b.labels
      lr := 0 }), args)

/-- The externally observable actions of `main` (train.py lines 276-318), in
program order; calls into collaborator modules and into the other functions
of this file appear as single labelled effects. -/
inductive MainEffect where
  | raiseValueError
  | makedirs (dir : String)
  | seedRandom (seed : Int)
  | buildTokenizer
  | buildProcessor
  | loadEvalData
  | loadTestData
  | loadTrainData
  | createModelEff
  | writeModelConfig (dir : String)
  | initDistributedEff
  | returnZero
  | runEvalEff
  | trainModelEff
  | runPredictEff
  | runOnnxEff
  deriving Repr, DecidableEq

/-- Embedding of `main(args)` (train.py lines 276-318) as the ordered list of actions it
performs.  `deviceOk` models whether the external `initialize_distributed`
returned a `torch.device` (otherwise `main` returns 0 early, line 304-305).
The argument object is returned unchanged. -/
def mainTrace (args : Args) (deviceOk : Bool) : List MainEffect × Args :=
  (if args.do_train = false ∧ args.do_eval = false ∧ args.do_predict = false ∧
      args.do_onnx = false then
    [MainEffect.raiseValueError]
  else
    ([MainEffect.makedirs args.output_dir, MainEffect.seedRandom args.seed,
       MainEffect.buildTokenizer, MainEffect.buildProcessor,
       MainEffect.loadEvalData]
      ++ (if args.do_predict then [MainEffect.loadTestData] else [])
      ++ (if args.do_train ∨ args.do_onnx then [MainEffect.loadTrainData] else [])
      ++ [MainEffect.createModelEff]
      ++ (if args.do_train ∨ args.do_onnx then
            [MainEffect.writeModelConfig args.output_dir] else [])
      ++ [MainEffect.initDistributedEff]
      ++ (if deviceOk = false then [MainEffect.returnZero]
          else
            (if args.do_eval then [MainEffect.runEvalEff] else [])
            ++ (if args.do_train then [MainEffect.trainModelEff] else [])
            ++ (if args.do_predict then [MainEffect.runPredictEff] else [])
            ++ (if args.do_onnx then [MainEffect.runOnnxEff] else []))),
   args)

/-- Actions of the `__main__` exception handler (train.py lines 512-522). -/
inductive TopEffect where
  | logException
  | runExitFuncs
  | killChildren
  | exitProc (code : Int)
  | reraise
  deriving Repr, DecidableEq

/-- The `try main(args) except Exception` block of the `__main__` entry point
(train.py lines 512-522), given the outcome of `main` (an abstract escaping
exception value on failure).  The logging and `atexit._run_exitfuncs()` calls
sit in an inner `try ... except: pass`: `logOk` / `atexitOk` model whether
those two calls themselves succeed; `kill_children()` and `os._exit(-1)` run
regardless.  Nothing is ever re-raised. -/
def top_level_on_main {E : Type} (outcome : Except E Unit)
    (logOk atexitOk : Bool) : List TopEffect :=
  match outcome with
  | Except.ok _ => []
  | Except.error _ =>
    (if logOk then
      TopEffect.logException ::
        (if atexitOk then [TopEffect.runExitFuncs] else [])
     else [])
    ++ [TopEffect.killChildren, TopEffect.exitProc (-1)]

/-! ### Concrete fixtures used to instantiate the theorems -/

/-- A concrete argument object as parsed with the defaults of
`build_argument_parser`, on the lead rank of a single-process run. -/
def argsLead : Args :=
  { do_train := false
    do_eval := true
    do_predict := false
    do_onnx := false
    data_dir := "glue"
    task_name := "mnli"
    output_dir := "out"
    init_model := none
    model_config := none
    pre_trained := none
    cls_drop_out := none
    fp16 := false
    tag := "final"
    seed := 1234
    rank := 0
    world_size := 1
    train_batch_size := 32
    eval_batch_size := 32
    num_train_epochs := 3
    dump_interval := 10000
    workers := 2
    debug := false
    max_seq_length := 128 }

/-- The object `argsLead` as seen by a non-lead worker rank. -/
def argsWorker : Args := { argsLead with rank := 1 }

/-- An evaluation dataset with no custom metric or prediction function. -/
def itemPlain : EvalItem ℕ :=
  { name := "dev"
    data_len := 2
    metrics_fn := none
    predict_fn := none
    critial_metrics := none
    ignore_metric := false }

/-- An evaluation dataset with a custom `metrics_fn` and one critical
metric. -/
def itemCrit : EvalItem ℕ :=
  { name := "dev"
    data_len := 2
    metrics_fn := some (fun _ _ => [("acc", (1 : ℚ)), ("f1", 0)])
    predict_fn := none
    critial_metrics := some ["acc"]
    ignore_metric := false }

/-! ### Lemmas about `merge_distributed` -/

theorem gatherStep_nondist {α : Type} {initialized : Bool} {world_size : Nat}
    (gather : List α → List (List α)) (d : TData α)
    (hnd : initialized = false ∨ world_size ≤ 1) :
    gatherStep initialized world_size gather d = [d] := by
  unfold gatherStep
  rw [if_neg]
  rintro ⟨hi, hw⟩
  rcases hnd with h | h
  · rw [h] at hi; cases hi
  · omega

theorem mergedOf_nondist {α : Type} {initialized : Bool} {world_size : Nat}
    (gather : List α → List (List α)) (data_list : List (TData α))
    (hnd : initialized = false ∨ world_size ≤ 1) :
    mergedOf initialized world_size gather data_list = data_list := by
  induction data_list with
  | nil => rfl
  | cons d rest ih =>
    unfold mergedOf at *
    simp only [List.map_cons, List.flatten_cons, gatherStep_nondist gather d hnd, ih]
    rfl

theorem allTensors_map_tensor {α : Type} (ts : List (List α)) :
    allTensors (ts.map TData.tensor) = some ts := by
  induction ts with
  | nil => rfl
  | cons t rest ih => simp [allTensors, ih]

theorem allSeqs_map_seq {α : Type} (dss : List (List (List α))) :
    allSeqs (dss.map TData.seq) = some dss := by
  induction dss with
  | nil => rfl
  | cons ds rest ih => simp [allSeqs, ih]

theorem foldl_min_const {β : Type} (k : Nat) (rest : List (List β))
    (h : ∀ x ∈ rest, x.length = k) :
    rest.foldl (fun m x => min m x.length) k = k := by
  induction rest with
  | nil => rfl
  | cons x rest ih =>
    have hx : x.length = k := h x (by simp)
    simp only [List.foldl_cons, hx, min_self]
    exact ih (fun y hy => h y (by simp [hy]))

theorem minLen_const {β : Type} {dss : List (List β)} {k : Nat}
    (hne : dss ≠ []) (h : ∀ ds ∈ dss, ds.length = k) :
    minLen dss = k := by
  cases dss with
  | nil => exact absurd rfl hne
  | cons l rest =>
    have hm : minLen (l :: rest) = rest.foldl (fun m x => min m x.length) l.length := rfl
    rw [hm, h l (by simp)]
    exact foldl_min_const k rest (fun y hy => h y (by simp [hy]))

theorem filterMap_get_eq_map_getD {β : Type} (i : Nat) (d : β)
    (dss : List (List β)) (h : ∀ ds ∈ dss, i < ds.length) :
    dss.filterMap (fun l => l.get? i) = dss.map (fun l => l.getD i d) := by
  induction dss with
  | nil => rfl
  | cons l rest ih =>
    have hl : i < l.length := h l (by simp)
    have hsome : l.get? i = some (l.getD i d) := by
      rw [List.getD_eq_getD_get?, List.get?_eq_get hl]
      simp
    simp only [List.filterMap_cons, hsome, List.map_cons]
    rw [ih (fun y hy => h y (by simp [hy]))]

theorem pyZip_length {β : Type} (ls : List (List β)) :
    (pyZip ls).length = minLen ls := by
  simp [pyZip]

theorem pyZip_get {β : Type} (ls : List (List β)) (i : Nat) (h : i < minLen ls) :
    (pyZip ls).get? i = some (ls.filterMap (fun l => l.get? i)) := by
  unfold pyZip
  rw [List.get?_map, List.get?_range h]
  rfl

theorem merge_distributed_nondist_tensor {α : Type} {initialized : Bool}
    {world_size : Nat} (gather : List α → List (List α)) (m : Nat)
    (hnd : initialized = false ∨ world_size ≤ 1)
    (ts : List (List α)) (hne : ts ≠ []) :
    merge_distributed initialized world_size gather (ts.map TData.tensor)
        (some m)
      = Except.ok (MergeResult.tensor (ts.flatten.take m)) := by
  cases ts with
  | nil => exact absurd rfl hne
  | cons t rest =>
    have hall := allTensors_map_tensor (t :: rest)
    simp only [List.map_cons] at hall
    simp [merge_distributed, mergedOf_nondist gather _ hnd, hall, truncTo]

theorem merge_distributed_nondist_seq {α : Type} {initialized : Bool}
    {world_size : Nat} (gather : List α → List (List α)) (m : Nat)
    (hnd : initialized = false ∨ world_size ≤ 1)
    (dss : List (List (List α))) (hne : dss ≠ []) :
    merge_distributed initialized world_size gather (dss.map TData.seq)
        (some m)
      = Except.ok (MergeResult.tensors
          ((pyZip dss).map (fun d => d.flatten.take m))) := by
  cases dss with
  | nil => exact absurd rfl hne
  | cons ds rest =>
    have hall := allSeqs_map_seq (ds :: rest)
    simp only [List.map_cons] at hall
    simp [merge_distributed, mergedOf_nondist gather _ hnd, hall, truncTo]

/-! ### Claim theorems for `merge_distributed` -/

/-- C1: `merge_distributed` handles single-tensor and multi-tensor inputs
uniformly in the non-distributed case (uninitialized process group or world
size at most 1): a non-empty list of single tensors yields their
concatenation truncated to the first `max_len` rows, and a non-empty list of
`k`-component sequences yields one tensor per component, the `i`-th being the
concatenation of all `i`-th components truncated to `max_len`. -/
theorem merge_distributed_gathers_and_truncates {α : Type}
    (initialized : Bool) (world_size : Nat) (gather : List α → List (List α))
    (m : Nat) (hnd : initialized = false ∨ world_size ≤ 1) :
    (∀ ts : List (List α), ts ≠ [] →
      merge_distributed initialized world_size gather (ts.map TData.tensor)
          (some m)
        = Except.ok (MergeResult.tensor (ts.flatten.take m)))
    ∧
    (∀ (dss : List (List (List α))) (k : Nat), dss ≠ [] →
      (∀ ds ∈ dss, ds.length = k) →
      ∃ L, merge_distributed initialized world_size gather (dss.map TData.seq)
            (some m)
          = Except.ok (MergeResult.tensors L)
        ∧ L.length = k
        ∧ ∀ i, i < k →
            L.get? i
              = some ((dss.map (fun ds => ds.getD i [])).flatten.take m)) := by
  constructor
  · exact merge_distributed_nondist_tensor gather m hnd
  · intro dss k hne hk
    refine ⟨(pyZip dss).map (fun d => d.flatten.take m),
      merge_distributed_nondist_seq gather m hnd dss hne, ?_, ?_⟩
    · rw [List.length_map, pyZip_length, minLen_const hne hk]
    · intro i hi
      have hmin : i < minLen dss := by rw [minLen_const hne hk]; exact hi
      rw [List.get?_map, pyZip_get dss i hmin,
        filterMap_get_eq_map_getD i [] dss
          (fun ds hds => by rw [hk ds hds]; exact hi)]
      rfl

/-- Witness for C1 at a concrete input: two single tensors concatenate and
truncate to the first two rows. -/
theorem merge_distributed_gathers_and_truncates_witness :
    merge_distributed false 1 (fun t => [t])
        ([[1, 2], [3]].map (TData.tensor (α := ℕ))) (some 2)
      = Except.ok (MergeResult.tensor [1, 2]) := by
  have h := (merge_distributed_gathers_and_truncates false 1 (fun t => [t]) 2
    (Or.inl rfl)).1 [[1, 2], [3]] (by simp)
  simpa using h

/-- C9: `merge_distributed` requires a non-empty input.  On an empty
`data_list` it fails with the `IndexError` of `merged[0]`; and — since the
`all_gather` helper always produces at least one chunk — the `merged` list
that `merged[0]` indexes is empty exactly when `data_list` is empty, so the
indexing is safe exactly under the precondition that `data_list` is
non-empty. -/
theorem merge_distributed_empty_fails {α : Type}
    (initialized : Bool) (world_size : Nat) (gather : List α → List (List α))
    (max_len : Option Nat) (hg : ∀ t, gather t ≠ []) :
    merge_distributed initialized world_size gather ([] : List (TData α))
        max_len
      = Except.error MergeErr.indexEmpty
    ∧ ∀ data_list : List (TData α),
        mergedOf initialized world_size gather data_list = []
          ↔ data_list = [] := by
  refine ⟨rfl, ?_⟩
  intro data_list
  constructor
  · intro hempty
    cases data_list with
    | nil => rfl
    | cons d rest =>
      exfalso
      have hstep : gatherStep initialized world_size gather d ≠ [] := by
        unfold gatherStep
        by_cases hcond : initialized = true ∧ 1 < world_size
        · rw [if_pos hcond]
          cases d with
          | seq ds => simp
          | tensor t =>
            intro hmap
            exact hg t (List.map_eq_nil_iff.mp hmap)
        · rw [if_neg hcond]; simp
      have : gatherStep initialized world_size gather d ++
          mergedOf initialized world_size gather rest = [] := hempty
      exact hstep (List.append_eq_nil.mp this).1
  · intro hnil
    rw [hnil]
    rfl

/-- Witness for C9 at a concrete input: the empty list fails with the
index error, and a singleton input produces a non-empty `merged` list. -/
theorem merge_distributed_empty_fails_witness :
    merge_distributed false 1 (fun t : List ℕ => [t]) ([] : List (TData ℕ))
        (some 3)
        = Except.error MergeErr.indexEmpty
    ∧ ¬ mergedOf false 1 (fun t : List ℕ => [t])
        [TData.tensor [(5 : ℕ)]] = [] := by
  have h := merge_distributed_empty_fails false 1 (fun t : List ℕ => [t])
    (some 3) (fun t => by simp)
  exact ⟨h.1, fun hc => by simpa using (h.2 [TData.tensor [(5 : ℕ)]]).mp hc⟩

/-! ### Lemmas about ordered-dict updates and `calc_metrics` -/

theorem odFind_odSet_self {β : Type} (l : List (String × β)) (k : String)
    (v : β) : odFind (odSet l k v) k = some v := by
  induction l with
  | nil => simp [odSet, odFind]
  | cons kv rest ih =>
    by_cases h : kv.1 = k
    · simp [odSet, odFind, h]
    · simp [odSet, odFind, h, ih]

theorem odFind_odSet_ne {β : Type} (l : List (String × β)) (k k2 : String)
    (v : β) (hne : k ≠ k2) : odFind (odSet l k v) k2 = odFind l k2 := by
  induction l with
  | nil => simp [odSet, odFind, hne]
  | cons kv rest ih =>
    by_cases h : kv.1 = k
    · simp [odSet, odFind, h, hne]
    · simp only [odSet, if_neg h]
      by_cases h2 : kv.1 = k2
      · simp [odFind, h2]
      · simp [odFind, h2, ih]

/-- Filtering a list of key-value pairs by membership of the key in the
list's own key set keeps every entry. -/
theorem filter_contains_own_keys {β : Type} (ms : List (String × β)) :
    ms.filter (fun kv => (ms.map Prod.fst).contains kv.1) = ms := by
  apply List.filter_eq_self.mpr
  intro kv hkv
  have : kv.1 ∈ ms.map Prod.fst := List.mem_map_of_mem Prod.fst hkv
  exact List.elem_eq_true_of_mem this

/-- The report dict assembled by `calc_metrics` maps `eval_metric` to the
metric computed by `calcEvalMetric`. -/
theorem calc_metrics_result_eval_metric {α : Type}
    (metric_accuracy : List α → List α → ℚ) (predicts labels : List α)
    (eval_loss : ℚ) (eval_item : EvalItem α)
    (eval_results : List (String × ℚ × List α × List α)) (args : Args)
    (name pfx : String) :
    odFind (calc_metrics metric_accuracy predicts labels eval_loss eval_item
        eval_results args name pfx).result "eval_metric"
      = some (calcEvalMetric metric_accuracy eval_item predicts labels) := by
  unfold calc_metrics
  simp only
  rw [odFind_odSet_ne _ _ _ _ (by decide), odFind_odSet_self]

/-- C3: `calc_metrics` folds the computed metric into the aggregate result
unless flagged to be ignored: with `ignore_metric` false the `eval_results`
mapping gains/updates the entry at `name` with the triple of the computed
metric, the predictions and the labels; with `ignore_metric` true the
mapping is returned unchanged. -/
theorem calc_metrics_folds_unless_ignored {α : Type}
    (metric_accuracy : List α → List α → ℚ) (predicts labels : List α)
    (eval_loss : ℚ) (eval_item : EvalItem α)
    (eval_results : List (String × ℚ × List α × List α)) (args : Args)
    (name pfx : String) :
    (eval_item.ignore_metric = false →
      (calc_metrics metric_accuracy predicts labels eval_loss eval_item
          eval_results args name pfx).eval_results
        = odSet eval_results name
            (calcEvalMetric metric_accuracy eval_item predicts labels,
              predicts, labels)
      ∧ odFind (calc_metrics metric_accuracy predicts labels eval_loss
            eval_item eval_results args name pfx).eval_results name
        = some (calcEvalMetric metric_accuracy eval_item predicts labels,
            predicts, labels))
    ∧ (eval_item.ignore_metric = true →
      (calc_metrics metric_accuracy predicts labels eval_loss eval_item
          eval_results args name pfx).eval_results
        = eval_results) := by
  constructor
  · intro hig
    constructor
    · simp [calc_metrics, hig]
    · simp only [calc_metrics, hig, Bool.false_eq_true, if_false]
      exact odFind_odSet_self _ _ _
  · intro hig
    simp [calc_metrics, hig]

/-- C4: the evaluation metric computed by `calc_metrics` is
`metric_accuracy(predicts, labels)` when no `metrics_fn` is supplied;
otherwise it is the arithmetic mean of the `metrics_fn` values whose keys
lie in `critial_metrics`, the mean being taken over all returned values when
`critial_metrics` is `None` or empty. -/
theorem calc_metrics_metric_choice {α : Type}
    (metric_accuracy : List α → List α → ℚ) (predicts labels : List α)
    (eval_loss : ℚ) (eval_item : EvalItem α)
    (eval_results : List (String × ℚ × List α × List α)) (args : Args)
    (name pfx : String) :
    (eval_item.metrics_fn = none →
      odFind (calc_metrics metric_accuracy predicts labels eval_loss
          eval_item eval_results args name pfx).result "eval_metric"
        = some (metric_accuracy predicts labels))
    ∧ (∀ f cm, eval_item.metrics_fn = some f →
        eval_item.critial_metrics = some cm → cm ≠ [] →
      odFind (calc_metrics metric_accuracy predicts labels eval_loss
          eval_item eval_results args name pfx).result "eval_metric"
        = some (qmean
            (((f predicts labels).filter
                (fun kv => cm.contains kv.1)).map Prod.snd)))
    ∧ (∀ f, eval_item.metrics_fn = some f →
        (eval_item.critial_metrics = none ∨
          eval_item.critial_metrics = some []) →
      odFind (calc_metrics metric_accuracy predicts labels eval_loss
          eval_item eval_results args name pfx).result "eval_metric"
        = some (qmean ((f predicts labels).map Prod.snd))) := by
  refine ⟨?_, ?_, ?_⟩
  · intro hmf
    rw [calc_metrics_result_eval_metric]
    unfold calcEvalMetric
    rw [hmf]
  · intro f cm hmf hcm hne
    rw [calc_metrics_result_eval_metric]
    unfold calcEvalMetric
    rw [hmf]
    simp only [hcm]
    rw [if_neg (by simpa using hne)]
  · intro f hmf hcm
    rw [calc_metrics_result_eval_metric]
    unfold calcEvalMetric
    rw [hmf]
    simp only
    have hfilter :
        ((f predicts labels).filter
            (fun kv => ((f predicts labels).map Prod.fst).contains kv.1)).map
          Prod.snd
        = (f predicts labels).map Prod.snd := by
      rw [filter_contains_own_keys]
    rcases hcm with h | h
    · simp only [h]
      rw [hfilter]
    · simp only [h, List.length_nil, if_true]
      rw [hfilter]

/-- Witness for C3 at a concrete input: without `ignore_metric` the entry is
recorded under the dataset name. -/
theorem calc_metrics_folds_unless_ignored_witness :
    (calc_metrics (fun _ _ => (1 : ℚ)) [7] [1] 0 itemPlain [] argsLead "dev"
        "final").eval_results
      = [("dev", ((1 : ℚ), [7], [1]))] := by
  have h := (calc_metrics_folds_unless_ignored (fun _ _ => (1 : ℚ)) [7] [1] 0
    itemPlain [] argsLead "dev" "final").1 rfl
  rw [h.1]
  rfl

/-- Witness for C4 at a concrete input: with `critial_metrics = ["acc"]` only
the `acc` value enters the mean. -/
theorem calc_metrics_metric_choice_witness :
    odFind (calc_metrics (fun _ _ => (0 : ℚ)) [7] [1] 0 itemCrit [] argsLead
        "dev" "final").result "eval_metric" = some 1 := by
  have h := (calc_metrics_metric_choice (fun _ _ => (0 : ℚ)) [7] [1] 0 itemCrit
    [] argsLead "dev" "final").2.1 (fun _ _ => [("acc", (1 : ℚ)), ("f1", 0)])
    ["acc"] rfl rfl (by simp)
  rw [h]
  simp [qmean]

/-! ### Claim theorems about `train_model`, `main` and the entry point -/

/-- C5: the number of training steps handed to the trainer is the integer
truncation of `len(train_data) * num_train_epochs / train_batch_size`: for a
positive batch size and non-negative epoch count it is the floor of that
quotient, i.e. the unique integer `s` with `s ≤ q < s + 1`. -/
theorem train_model_num_steps (args : Args) (train_data_len : Nat)
    (hb : 0 < args.train_batch_size) (he : 0 ≤ args.num_train_epochs) :
    (train_model args train_data_len).num_train_steps
        = Int.floor ((train_data_len : ℚ) * args.num_train_epochs /
            (args.train_batch_size : ℚ))
    ∧ ((train_model args train_data_len).num_train_steps : ℚ)
        ≤ (train_data_len : ℚ) * args.num_train_epochs /
            (args.train_batch_size : ℚ)
    ∧ (train_data_len : ℚ) * args.num_train_epochs /
          (args.train_batch_size : ℚ)
        < ((train_model args train_data_len).num_train_steps : ℚ) + 1 := by
  have hq : 0 ≤ (train_data_len : ℚ) * args.num_train_epochs /
      (args.train_batch_size : ℚ) := by
    apply div_nonneg
    · exact mul_nonneg (by positivity) he
    · exact_mod_cast hb.le
  have h1 : (train_model args train_data_len).num_train_steps
      = Int.floor ((train_data_len : ℚ) * args.num_train_epochs /
          (args.train_batch_size : ℚ)) := by
    show pyInt _ = _
    unfold pyInt
    rw [if_pos hq]
  refine ⟨h1, ?_, ?_⟩
  · rw [h1]; exact Int.floor_le _
  · rw [h1]; exact Int.lt_floor_add_one _

/-- Witness for C5 at a concrete input: 100 examples, 3 epochs, batch 32
give `int(300/32) = 9` steps. -/
theorem train_model_num_steps_witness :
    (train_model argsLead 100).num_train_steps = 9 := by
  have h := (train_model_num_steps argsLead 100 (by decide) (by decide)).1
  rw [h]
  norm_num [argsLead]

/-- C2: `main` raises a `ValueError` as its only action when none of
`do_train`, `do_eval`, `do_predict`, `do_onnx` is set (in particular before
any directory creation or model construction), and never raises it when at
least one of the four flags is set. -/
theorem main_requires_mode (args : Args) (deviceOk : Bool) :
    ((args.do_train = false ∧ args.do_eval = false ∧ args.do_predict = false ∧
        args.do_onnx = false) →
      (mainTrace args deviceOk).1 = [MainEffect.raiseValueError])
    ∧ ((args.do_train = true ∨ args.do_eval = true ∨ args.do_predict = true ∨
        args.do_onnx = true) →
      MainEffect.raiseValueError ∉ (mainTrace args deviceOk).1) := by
  constructor
  · intro h
    simp [mainTrace, h.1, h.2.1, h.2.2.1, h.2.2.2]
  · intro h
    have hne : ¬(args.do_train = false ∧ args.do_eval = false ∧
        args.do_predict = false ∧ args.do_onnx = false) := by
      rcases h with h | h | h | h <;> simp [h]
    simp only [mainTrace, if_neg hne]
    split_ifs <;> simp

/-- Witness for C2 at concrete inputs: with no mode flag the trace is the
bare `ValueError`, and with `do_eval` it is never raised. -/
theorem main_requires_mode_witness :
    (mainTrace { argsLead with do_eval := false } true).1
        = [MainEffect.raiseValueError]
    ∧ MainEffect.raiseValueError ∉ (mainTrace argsLead true).1 := by
  refine ⟨(main_requires_mode { argsLead with do_eval := false } true).1
    ⟨rfl, rfl, rfl, rfl⟩, (main_requires_mode argsLead true).2 ?_⟩
  exact Or.inr (Or.inl rfl)

/-- C8: for every exception escaping `main`, the entry point runs
`kill_children` and `os._exit(-1)` and never re-raises; when the logging and
`atexit` cleanup themselves succeed, the full action sequence is exactly
log, run exit handlers, kill children, exit with status -1. -/
theorem top_level_fatal {E : Type} (e : E) (logOk atexitOk : Bool) :
    TopEffect.killChildren ∈ top_level_on_main (Except.error e) logOk atexitOk
    ∧ TopEffect.exitProc (-1)
        ∈ top_level_on_main (Except.error e) logOk atexitOk
    ∧ TopEffect.reraise ∉ top_level_on_main (Except.error e) logOk atexitOk
    ∧ (logOk = true → atexitOk = true →
        top_level_on_main (Except.error e) logOk atexitOk
          = [TopEffect.logException, TopEffect.runExitFuncs,
             TopEffect.killChildren, TopEffect.exitProc (-1)]) := by
  cases logOk <;> cases atexitOk <;> simp [top_level_on_main]

/-- Witness for C8 at a concrete escaping exception. -/
theorem top_level_fatal_witness :
    top_level_on_main (Except.error ()) true true
      = [TopEffect.logException, TopEffect.runExitFuncs,
         TopEffect.killChildren, TopEffect.exitProc (-1)] :=
  (top_level_fatal () true true).2.2.2 rfl rfl

/-- C7: the parsed argument object is consumed read-only: every function of
the file returns with `args` unchanged (the embedding threads the object
through each call; none of the translated bodies assigns to it —
`merge_distributed` only reads the module-global `args.world_size`, passed
here as the `world_size` parameter). -/
theorem args_read_only {α : Type} (metric_accuracy : List α → List α → ℚ)
    (args : Args) (num_labels train_data_len : Nat)
    (predicts labels : List α) (eval_loss : ℚ) (eval_item : EvalItem α)
    (eval_results : List (String × ℚ × List α × List α)) (name pfx : String)
    (initialized : Bool) (gather : List α → List (List α))
    (eval_data : List (EvalItem α × List (EvalBatch α)))
    (pred_data : List (EvalItem α × List (List α)))
    (onnx_batches : List (OnnxBatch α)) (po tagO : Option String)
    (deviceOk : Bool) :
    (create_model args num_labels).2 = args
    ∧ (train_model args train_data_len).args = args
    ∧ (calc_metrics metric_accuracy predicts labels eval_loss eval_item
        eval_results args name pfx).args = args
    ∧ (run_eval metric_accuracy args initialized gather eval_data po tagO).2
        = args
    ∧ (run_predict args gather pred_data po).args = args
    ∧ (run_onnx_training args onnx_batches).2 = args
    ∧ (mainTrace args deviceOk).2 = args :=
  ⟨rfl, rfl, rfl, rfl, rfl, rfl, rfl⟩

/-! ### Claim theorems about output files (`calc_metrics` / `run_predict`) -/

theorem run_predict_loop_files_rank_pos {α : Type} (args : Args)
    (gather : List α → List (List α)) (pfx : String)
    (hrank : 0 < args.rank) :
    ∀ (items : List (EvalItem α × List (List α))) (acc : List FileOut),
      (run_predict_loop args gather pfx items acc).1 = acc := by
  intro items
  induction items with
  | nil => intro acc; rfl
  | cons il rest ih =>
    intro acc
    obtain ⟨item, lgs⟩ := il
    cases lgs with
    | nil => simp [run_predict_loop, run_predict_item]
    | cons lg lgs =>
      have hnot : ¬ args.rank ≤ 0 := by omega
      simp only [run_predict_loop, run_predict_item, if_neg hnot]
      rw [List.append_nil]
      exact ih acc

/-- C6: result files are written only by the lead process and carry the
spec'd names.  With `args.rank > 0` neither `calc_metrics` nor `run_predict`
creates any file (and `calc_metrics` does not invoke `predict_fn`); with
`args.rank ≤ 0`, `calc_metrics` writes `eval_results_{name}_{tag}.txt` into
`args.output_dir` — plus `predict_results_{name}_{tag}.txt` when no
`predict_fn` is supplied — and `run_predict` writes
`test_logits_{name}_{tag}.txt`, where `{tag}` is the prefix argument. -/
theorem output_files_lead_rank_only {α : Type}
    (metric_accuracy : List α → List α → ℚ) (predicts labels : List α)
    (eval_loss : ℚ) (eval_item : EvalItem α)
    (eval_results : List (String × ℚ × List α × List α)) (args : Args)
    (name pfx : String) (gather : List α → List (List α))
    (pred_data : List (EvalItem α × List (List α)))
    (item2 : EvalItem α) (lgs : List (List α)) :
    (0 < args.rank →
      (calc_metrics metric_accuracy predicts labels eval_loss eval_item
          eval_results args name pfx).files = []
      ∧ (calc_metrics metric_accuracy predicts labels eval_loss eval_item
          eval_results args name pfx).predictFnCalled = false
      ∧ (run_predict args gather pred_data (some pfx)).files = [])
    ∧ (args.rank ≤ 0 →
      ({ dir := args.output_dir,
         file := "eval_results_" ++ name ++ "_" ++ pfx ++ ".txt" } : FileOut)
        ∈ (calc_metrics metric_accuracy predicts labels eval_loss eval_item
            eval_results args name pfx).files
      ∧ (eval_item.predict_fn = none →
        ({ dir := args.output_dir,
           file := "predict_results_" ++ name ++ "_" ++ pfx ++ ".txt" } :
            FileOut)
          ∈ (calc_metrics metric_accuracy predicts labels eval_loss eval_item
              eval_results args name pfx).files)
      ∧ (lgs ≠ [] →
        ({ dir := args.output_dir,
           file := "test_logits_" ++ item2.name ++ "_" ++ pfx ++ ".txt" } :
            FileOut)
          ∈ (run_predict args gather [(item2, lgs)] (some pfx)).files)) := by
  constructor
  · intro hrank
    have hnot : ¬ args.rank ≤ 0 := by omega
    refine ⟨?_, ?_, ?_⟩
    · simp [calc_metrics, if_neg hnot]
    · simp [calc_metrics, hnot]
    · show (run_predict_loop args gather (pyStr (some pfx)) pred_data []).1 = []
      exact run_predict_loop_files_rank_pos args gather _ hrank pred_data []
  · intro hrank
    refine ⟨?_, ?_, ?_⟩
    · simp [calc_metrics, if_pos hrank]
    · intro hpf
      simp [calc_metrics, if_pos hrank, hpf]
    · intro hlgs
      cases lgs with
      | nil => exact absurd rfl hlgs
      | cons lg rest =>
        show _ ∈ (run_predict_loop args gather (pyStr (some pfx))
          [(item2, lg :: rest)] []).1
        simp [run_predict_loop, run_predict_item, if_pos hrank, pyStr]

/-- Witness for C6 at concrete inputs: the worker rank writes nothing, the
lead rank writes the eval report. -/
theorem output_files_lead_rank_only_witness :
    (calc_metrics (fun _ _ => (1 : ℚ)) [7] [1] 0 itemPlain [] argsWorker
        "dev" "final").files = []
    ∧ ({ dir := "out", file := "eval_results_dev_final.txt" } : FileOut)
        ∈ (calc_metrics (fun _ _ => (1 : ℚ)) [7] [1] 0 itemPlain [] argsLead
            "dev" "final").files := by
  constructor
  · exact ((output_files_lead_rank_only (fun _ _ => (1 : ℚ)) [7] [1] 0
      itemPlain [] argsWorker "dev" "final" (fun t => [t]) [] itemPlain []).1
      (by decide)).1
  · have h := ((output_files_lead_rank_only (fun _ _ => (1 : ℚ)) [7] [1] 0
      itemPlain [] argsLead "dev" "final" (fun t => [t]) [] itemPlain []).2
      (by decide)).1
    simpa [argsLead] using h

/-! ### Claim theorems about `run_eval` and empty loaders -/

theorem run_eval_item_zeroDiv_iff {α : Type}
    (metric_accuracy : List α → List α → ℚ) (args : Args) (initialized : Bool)
    (gather : List α → List (List α)) (eval_item : EvalItem α)
    (batches : List (EvalBatch α))
    (eval_results : List (String × ℚ × List α × List α)) (pfx : String) :
    run_eval_item metric_accuracy args initialized gather eval_item batches
        eval_results pfx
      = Except.error EvalErr.zeroDiv
    ↔ batches = [] := by
  constructor
  · intro h
    by_contra hne
    have hlen : ¬ batches.length = 0 := by
      simpa [List.length_eq_zero] using hne
    simp only [run_eval_item] at h
    rw [if_neg hlen] at h
    cases hm1 : merge_distributed initialized args.world_size gather
        (batches.map EvalBatch.logits) (some eval_item.data_len) with
    | error e => rw [hm1] at h; simp at h
    | ok p1 =>
      rw [hm1] at h
      cases hm2 : merge_distributed initialized args.world_size gather
          (batches.map (fun b => TData.tensor b.label_ids))
          (some eval_item.data_len) with
      | error e2 => rw [hm2] at h; simp at h
      | ok r2 =>
        rw [hm2] at h
        cases r2 with
        | tensors ls => simp at h
        | tensor ls =>
          cases p1 with
          | tensor p => simp at h
          | tensors ps => simp at h
  · intro h
    subst h
    rfl

theorem run_eval_loop_fails_of_empty_item {α : Type}
    (metric_accuracy : List α → List α → ℚ) (args : Args) (initialized : Bool)
    (gather : List α → List (List α)) (pfx : String) :
    ∀ (eval_data : List (EvalItem α × List (EvalBatch α)))
      (acc : List (String × ℚ × List α × List α) × List FileOut),
      (∃ p ∈ eval_data, p.2 = ([] : List (EvalBatch α))) →
      ∃ e, run_eval_loop metric_accuracy args initialized gather pfx eval_data
          acc = Except.error e := by
  intro eval_data
  induction eval_data with
  | nil =>
    rintro acc ⟨p, hp, _⟩
    cases hp
  | cons ib rest ih =>
    rintro acc ⟨p, hp, hempty⟩
    obtain ⟨item, batches⟩ := ib
    rcases List.mem_cons.mp hp with rfl | hmem
    · have hz : run_eval_item metric_accuracy args initialized gather item
          batches acc.1 pfx = Except.error EvalErr.zeroDiv :=
        (run_eval_item_zeroDiv_iff metric_accuracy args initialized gather
          item batches acc.1 pfx).mpr hempty
      refine ⟨EvalErr.zeroDiv, ?_⟩
      unfold run_eval_loop
      rw [hz]
    · cases hr : run_eval_item metric_accuracy args initialized gather item
          batches acc.1 pfx with
      | error e =>
        refine ⟨e, ?_⟩
        unfold run_eval_loop
        rw [hr]
      | ok res =>
        obtain ⟨e, he⟩ := ih (res.1, acc.2 ++ res.2) ⟨p, hmem, hempty⟩
        refine ⟨e, ?_⟩
        unfold run_eval_loop
        rw [hr]
        exact he

/-- C10: `run_eval` requires every evaluation dataset to yield at least one
batch on the calling rank: the per-item evaluation fails with the
`ZeroDivisionError` of `eval_loss / nb_eval_steps` exactly when the loader
produced zero batches, and a `run_eval` call over data containing such an
item always fails. -/
theorem run_eval_zero_batches_fails {α : Type}
    (metric_accuracy : List α → List α → ℚ) (args : Args) (initialized : Bool)
    (gather : List α → List (List α)) (eval_item : EvalItem α)
    (batches : List (EvalBatch α))
    (eval_results : List (String × ℚ × List α × List α)) (pfx : String)
    (eval_data : List (EvalItem α × List (EvalBatch α)))
    (po tagO : Option String) :
    (run_eval_item metric_accuracy args initialized gather eval_item batches
          eval_results pfx
        = Except.error EvalErr.zeroDiv
      ↔ batches = [])
    ∧ ((∃ p ∈ eval_data, p.2 = ([] : List (EvalBatch α))) →
      ∃ e, (run_eval metric_accuracy args initialized gather eval_data po
          tagO).1 = Except.error e) := by
  constructor
  · exact run_eval_item_zeroDiv_iff metric_accuracy args initialized gather
      eval_item batches eval_results pfx
  · intro hexists
    exact run_eval_loop_fails_of_empty_item metric_accuracy args initialized
      gather _ eval_data ([], []) hexists

/-- Witness for C10 at a concrete input: one dataset whose loader yields no
batch makes `run_eval` fail. -/
theorem run_eval_zero_batches_fails_witness :
    run_eval_item (fun _ _ => (1 : ℚ)) argsLead false (fun t : List ℕ => [t])
        itemPlain [] [] "final"
      = Except.error EvalErr.zeroDiv
    ∧ ∃ e, (run_eval (fun _ _ => (1 : ℚ)) argsLead false
        (fun t : List ℕ => [t]) [(itemPlain, [])] (some "final") none).1
      = Except.error e := by
  have h := run_eval_zero_batches_fails (fun _ _ => (1 : ℚ)) argsLead false
    (fun t : List ℕ => [t]) itemPlain [] [] "final" [(itemPlain, [])]
    (some "final") none
  exact ⟨h.1.mpr rfl, h.2 ⟨(itemPlain, []), by simp, rfl⟩⟩

end DeBERTaApps
